import Mathlib

/-!
Shallow embedding of `src/native/rust_req_nif/src/lib.rs` (rust_req).

The NIF library wraps reqwest: it builds a blocking or async client from an
`HttpOptions` struct, performs GET/POST exchanges, classifies transport
failures, and dispatches concurrent GET batches.  Network effects are
abstracted into explicit environment records (the outcome the network would
produce for a given request); everything else is transcribed from the source.
-/

namespace RustReq

/-- Options struct, lib.rs lines 16-21 (`HttpOptions`).  Every field is an
`Option`, exactly as in the Rust struct. -/
structure HttpOptions where
  timeout_ms : Option Nat
  proxy : Option String
  follow_redirects : Option Bool
  max_redirects : Option Nat
deriving Repr, DecidableEq

/-- The `Default` impl, lib.rs lines 23-32. -/
def HttpOptions.default : HttpOptions :=
  { timeout_ms := some 30000
    proxy := none
    follow_redirects := some true
    max_redirects := some 10 }

/-- A reqwest redirect policy: `Policy::none()` or `Policy::limited(max)`.
reqwest's builder default (when no `redirect` call is made) is
`Policy::limited(10)` per the reqwest documentation. -/
inductive RedirectPolicy where
  | noFollow : RedirectPolicy
  | limited (max : Nat) : RedirectPolicy
deriving Repr, DecidableEq

/-- The policy a built client carries: request timeout in milliseconds, the
attached proxy (if any), and the redirect policy. -/
structure ClientConfig where
  timeout_ms : Nat
  proxy : Option String
  redirect : RedirectPolicy
deriving Repr, DecidableEq

/-- Embedding of `build_client`, lib.rs lines 56-73.  `proxyParse` abstracts
`reqwest::Proxy::all` (external library): `none` models a parse failure, which
the source propagates with `?`.  The timeout is `timeout_ms.unwrap_or(30000)`
(line 58); the redirect policy is chosen by the nested `if let` on lines 64-70,
and when no `redirect` call is made the reqwest default `limited 10` applies. -/
def build_client (proxyParse : String → Option String) (options : HttpOptions) :
    Except String ClientConfig :=
  let timeout := options.timeout_ms.getD 30000
  let proxied : Except String (Option String) :=
    match options.proxy with
    | some proxy_url =>
        match proxyParse proxy_url with
        | some p => .ok (some p)
        | none => .error ("builder error: " ++ proxy_url)
    | none => .ok none
  match proxied with
  | .error e => .error e
  | .ok pr =>
      let redirect :=
        match options.follow_redirects with
        | some follow =>
            if !follow then RedirectPolicy.noFollow
            else
              match options.max_redirects with
              | some max => RedirectPolicy.limited max
              | none => RedirectPolicy.limited 10
        | none => RedirectPolicy.limited 10
      .ok { timeout_ms := timeout, proxy := pr, redirect := redirect }

/-- Embedding of `build_async_client`, lib.rs lines 75-92, transcribed
separately from its own source lines (the Rust bodies are duplicated, one per
execution mode). -/
def build_async_client (proxyParse : String → Option String) (options : HttpOptions) :
    Except String ClientConfig :=
  let timeout := options.timeout_ms.getD 30000
  let proxied : Except String (Option String) :=
    match options.proxy with
    | some proxy_url =>
        match proxyParse proxy_url with
        | some p => .ok (some p)
        | none => .error ("builder error: " ++ proxy_url)
    | none => .ok none
  match proxied with
  | .error e => .error e
  | .ok pr =>
      let redirect :=
        match options.follow_redirects with
        | some follow =>
            if !follow then RedirectPolicy.noFollow
            else
              match options.max_redirects with
              | some max => RedirectPolicy.limited max
              | none => RedirectPolicy.limited 10
        | none => RedirectPolicy.limited 10
      .ok { timeout_ms := timeout, proxy := pr, redirect := redirect }

/-- The effective resolved policy of the builders: the timeout defaulting of
line 58, the raw proxy field (validation deferred to the builder), and the
redirect choice of lines 64-70.  Total by construction. -/
def resolvePolicy (o : HttpOptions) : ClientConfig :=
  { timeout_ms := o.timeout_ms.getD 30000
    proxy := o.proxy
    redirect :=
      match o.follow_redirects with
      | some follow =>
          if !follow then RedirectPolicy.noFollow
          else
            match o.max_redirects with
            | some max => RedirectPolicy.limited max
            | none => RedirectPolicy.limited 10
      | none => RedirectPolicy.limited 10 }

/-- Spec-side statement of the amended redirect rule, for comparison with the
builders: explicitly-false `follow_redirects` disables following; explicitly
true caps at `max_redirects` defaulted to 10; an absent `follow_redirects`
leaves the transport default cap 10, ignoring any supplied `max_redirects`. -/
def specRedirect (o : HttpOptions) : RedirectPolicy :=
  match o.follow_redirects with
  | some false => RedirectPolicy.noFollow
  | some true => RedirectPolicy.limited (o.max_redirects.getD 10)
  | none => RedirectPolicy.limited 10

/-- C5: For every `HttpOptions` value (and every behaviour of the external
proxy parser, shared by both paths since both call `reqwest::Proxy::all`), the
blocking-mode builder and the async-mode builder make identical policy
decisions: same timeout, same proxy attachment and same failure on an invalid
proxy URL, same redirect policy. -/
theorem c5_builders_policy_equivalent :
    ∀ (proxyParse : String → Option String) (o : HttpOptions),
      build_client proxyParse o = build_async_client proxyParse o :=
  fun _ _ => rfl

/-- C4: With all fields absent, resolution yields exactly the policy
{timeout 30000 ms, no proxy, follow redirects with cap 10}; the code's own
`Default` impl agrees field-wise; and `build_client` realises exactly the
resolved policy whenever no proxy is supplied (resolution itself is a total
Lean function, hence pure and deterministic). -/
theorem c4_resolution_defaults :
    resolvePolicy ⟨none, none, none, none⟩ =
      { timeout_ms := 30000, proxy := none, redirect := RedirectPolicy.limited 10 } ∧
    HttpOptions.default = ⟨some 30000, none, some true, some 10⟩ ∧
    ∀ (proxyParse : String → Option String) (o : HttpOptions),
      o.proxy = none → build_client proxyParse o = .ok (resolvePolicy o) := by
  refine ⟨rfl, rfl, ?_⟩
  intro pp o h
  cases o with
  | mk t p f m =>
    cases h
    rfl

/-- Witness for `c4_resolution_defaults` at the all-absent options value. -/
theorem c4_resolution_defaults_witness :
    (⟨none, none, none, none⟩ : HttpOptions).proxy = none ∧
    build_client (fun _ => none) ⟨none, none, none, none⟩ =
      .ok (resolvePolicy ⟨none, none, none, none⟩) :=
  ⟨rfl, c4_resolution_defaults.2.2 (fun _ => none) ⟨none, none, none, none⟩ rfl⟩

/-- C3 counterexample: with `follow_redirects` absent (which the claim says
resolves to true) and `max_redirects` explicitly 5, the built client keeps the
transport default cap 10 — the supplied cap 5 is NOT applied, because the
source only reads `max_redirects` inside `if let Some(follow) = follow_redirects`. -/
theorem c3_redirect_counterexample :
    build_client (fun s => some s) ⟨none, none, none, some 5⟩ =
      .ok { timeout_ms := 30000, proxy := none, redirect := RedirectPolicy.limited 10 } ∧
    RedirectPolicy.limited 10 ≠ RedirectPolicy.limited 5 :=
  ⟨rfl, by decide⟩

/-- C3 amended: every successfully built client's redirect policy follows the
amended rule `specRedirect`: explicit false disables all following; explicit
true caps at the supplied `max_redirects` (default 10 when absent); absent
`follow_redirects` keeps the transport default cap 10 and ignores any supplied
`max_redirects`. -/
theorem c3_redirect_amended :
    ∀ (proxyParse : String → Option String) (o : HttpOptions) (c : ClientConfig),
      build_client proxyParse o = .ok c → c.redirect = specRedirect o := by
  intro pp o c h
  cases o with
  | mk t p f m =>
    cases p with
    | none =>
        cases h
        cases f with
        | none => rfl
        | some follow =>
            cases follow with
            | false => cases m <;> rfl
            | true => cases m <;> rfl
    | some url =>
        revert h
        simp only [build_client]
        cases hpp : pp url with
        | none => intro h; cases h
        | some q =>
            intro h
            cases h
            cases f with
            | none => rfl
            | some follow =>
                cases follow with
                | false => cases m <;> rfl
                | true => cases m <;> rfl

/-- Witness for `c3_redirect_amended`: a concrete build with
`follow_redirects = some false` yields the `noFollow` policy. -/
theorem c3_redirect_amended_witness :
    build_client (fun _ => none) ⟨some 500, none, some false, some 3⟩ =
      .ok { timeout_ms := 500, proxy := none, redirect := RedirectPolicy.noFollow } ∧
    ({ timeout_ms := 500, proxy := none, redirect := RedirectPolicy.noFollow } :
        ClientConfig).redirect = specRedirect ⟨some 500, none, some false, some 3⟩ :=
  ⟨rfl, c3_redirect_amended (fun _ => none) ⟨some 500, none, some false, some 3⟩
    { timeout_ms := 500, proxy := none, redirect := RedirectPolicy.noFollow } rfl⟩

/-- Model of a `reqwest::Error` raised by `send()`: the probes the source
calls (`is_timeout`, `is_connect`) and the `Display` text used by
`format!("Request error: {}", e)`. -/
structure ReqError where
  is_timeout : Bool
  is_connect : Bool
  msg : String
deriving Repr, DecidableEq

/-- Model of a rustler `Error` value returned by the single-call NIFs: either
`Error::Atom(name)` or `Error::Term(string)`. -/
inductive NifError where
  | atom (name : String) : NifError
  | term (msg : String) : NifError
deriving Repr, DecidableEq

/-- Send-error classification closure of `http_get`, lib.rs lines 108-116. -/
def classify_get (e : ReqError) : NifError :=
  if e.is_timeout then NifError.atom "timeout"
  else if e.is_connect then NifError.atom "network_error"
  else NifError.term ("Request error: " ++ e.msg)

/-- Send-error classification closure of `http_post`, lib.rs lines 149-157. -/
def classify_post (e : ReqError) : NifError :=
  if e.is_timeout then NifError.atom "timeout"
  else if e.is_connect then NifError.atom "network_error"
  else NifError.term ("Request error: " ++ e.msg)

/-- Send-error classification closure of `http_get_async`, lib.rs lines 195-203. -/
def classify_get_async (e : ReqError) : NifError :=
  if e.is_timeout then NifError.atom "timeout"
  else if e.is_connect then NifError.atom "network_error"
  else NifError.term ("Request error: " ++ e.msg)

/-- Send-error classification closure of `http_post_async`, lib.rs lines 243-251. -/
def classify_post_async (e : ReqError) : NifError :=
  if e.is_timeout then NifError.atom "timeout"
  else if e.is_connect then NifError.atom "network_error"
  else NifError.term ("Request error: " ++ e.msg)

/-- Model of a complete wire response: status code, response headers (a value
is `none` when `HeaderValue::to_str()` would fail, i.e. the value is not
representable as text), and the body as the stream of chunks the transport
delivers. -/
structure Response where
  status : Nat
  headers : List (String × Option String)
  bodyChunks : List String
deriving Repr, DecidableEq

/-- Model of `response.text()` on a fully delivered response: the entire body,
all chunks concatenated. -/
def text (r : Response) : String := String.join r.bodyChunks

/-- Model of `HashMap::insert` during a `collect`: inserting a key that is
already present replaces its value in place; a new key is appended.  A Rust
`HashMap` iterates in arbitrary order, so theorems about the collected map
speak only of its bindings (`List.lookup`), which are order-independent. -/
def hashMapInsert (m : List (String × String)) (k v : String) : List (String × String) :=
  match m with
  | [] => [(k, v)]
  | p :: rest => if p.1 = k then (k, v) :: rest else p :: hashMapInsert rest k v

/-- Model of `.collect::<HashMap<String, String>>()` on a pair iterator:
fold the pairs into the map by insertion, so a later duplicate name replaces
an earlier one (last value wins). -/
def collectHashMap (l : List (String × String)) : List (String × String) :=
  l.foldl (fun acc kv => hashMapInsert acc kv.1 kv.2) []

/-- The value of the last occurrence of header name `k` in a raw response
header list, if the name occurs at all. -/
def lastValue : List (String × Option String) → String → Option (Option String)
  | [], _ => none
  | p :: t, k =>
      match lastValue t k with
      | some v => some v
      | none => if p.1 = k then some p.2 else none

/-- The value of the last occurrence of key `k` in a list of string pairs, if
the key occurs at all. -/
def lastBinding : List (String × String) → String → Option String
  | [], _ => none
  | p :: t, k =>
      match lastBinding t k with
      | some v => some v
      | none => if p.1 = k then some p.2 else none

/-- Header conversion of `http_get`, lib.rs lines 119-123:
`(k.to_string(), v.to_str().unwrap_or("").to_string())` for every header,
collected into a `HashMap<String, String>` (last value wins on duplicate
names). -/
def convertHeaders_get (hs : List (String × Option String)) : List (String × String) :=
  collectHashMap (hs.map (fun kv => (kv.1, kv.2.getD "")))

/-- Header conversion of `http_post`, lib.rs lines 160-164, with the same
`HashMap` collection. -/
def convertHeaders_post (hs : List (String × Option String)) : List (String × String) :=
  collectHashMap (hs.map (fun kv => (kv.1, kv.2.getD "")))

/-- Header conversion of `http_get_async`, lib.rs lines 206-210, with the same
`HashMap` collection. -/
def convertHeaders_get_async (hs : List (String × Option String)) : List (String × String) :=
  collectHashMap (hs.map (fun kv => (kv.1, kv.2.getD "")))

/-- Header conversion of `http_post_async`, lib.rs lines 254-258, with the
same `HashMap` collection. -/
def convertHeaders_post_async (hs : List (String × Option String)) : List (String × String) :=
  collectHashMap (hs.map (fun kv => (kv.1, kv.2.getD "")))

/-- Header conversion inside the batch task, lib.rs lines 296-300, with the
same `HashMap` collection. -/
def convertHeaders_batch (hs : List (String × Option String)) : List (String × String) :=
  collectHashMap (hs.map (fun kv => (kv.1, kv.2.getD "")))

/-- The network environment one exchange runs against: the external proxy
parser, the outcome `send()` would produce, and whether the body read
(`response.text()`) would fail (with what message). -/
structure ExchangeEnv where
  proxyParse : String → Option String
  sendResult : Except ReqError Response
  bodyError : Option String

/-- The outcome of `response.text()` in environment `env`. -/
def readBody (env : ExchangeEnv) (r : Response) : Except String String :=
  match env.bodyError with
  | some m => .error m
  | none => .ok (text r)

/-- The `(status, headers, body)` success tuple returned over the NIF
boundary (`HttpResponse`, lib.rs lines 34-39). -/
structure HttpResponseM where
  status : Nat
  headers : List (String × String)
  body : String
deriving Repr, DecidableEq

/-- Embedding of `http_get`, lib.rs lines 96-133: build the blocking client
(failure → `Error::Term("Client error: …")`), send (failure → the
classification of lines 108-116), convert headers, read the full body
(failure → `Error::Term("Body error: …")`), and return the response tuple. -/
def http_get (env : ExchangeEnv) (options : HttpOptions) :
    Except NifError HttpResponseM :=
  match build_client env.proxyParse options with
  | .error e => .error (NifError.term ("Client error: " ++ e))
  | .ok _client =>
      match env.sendResult with
      | .error e => .error (classify_get e)
      | .ok response =>
          let status := response.status
          let headers_map := convertHeaders_get response.headers
          match readBody env response with
          | .error e => .error (NifError.term ("Body error: " ++ e))
          | .ok body => .ok { status := status, headers := headers_map, body := body }

/-- Embedding of `http_get_async`, lib.rs lines 178-222: identical staging but
through `build_async_client` and the async classification closure. -/
def http_get_async (env : ExchangeEnv) (options : HttpOptions) :
    Except NifError HttpResponseM :=
  match build_async_client env.proxyParse options with
  | .error e => .error (NifError.term ("Client error: " ++ e))
  | .ok _client =>
      match env.sendResult with
      | .error e => .error (classify_get_async e)
      | .ok response =>
          let status := response.status
          let headers_map := convertHeaders_get_async response.headers
          match readBody env response with
          | .error e => .error (NifError.term ("Body error: " ++ e))
          | .ok body => .ok { status := status, headers := headers_map, body := body }

/-- The network behaviour one spawned batch task runs against: the outcome
`send().await` would produce for its URL, whether `text().await` would fail,
and whether the task's `JoinHandle` itself fails (tokio `JoinError`, e.g. a
panic inside the task) with what display text. -/
structure TaskRun where
  send : Except ReqError Response
  bodyError : Option String
  joinError : Option String
deriving Repr

/-- The body of one spawned batch task, lib.rs lines 286-313: on send success
convert headers and read the full body (`Err("Body error: …")` on a body read
failure); on send failure return `Err("Request error: …")` — note the batch
task performs NO timeout/connect probing. -/
def batchTask (send : Except ReqError Response) (bodyError : Option String) :
    Except String HttpResponseM :=
  match send with
  | .ok response =>
      let status := response.status
      let headers_map := convertHeaders_batch response.headers
      let bodyRead : Except String String :=
        match bodyError with
        | some m => .error m
        | none => .ok (text response)
      match bodyRead with
      | .ok body => .ok { status := status, headers := headers_map, body := body }
      | .error e => .error ("Body error: " ++ e)
  | .error e => .error ("Request error: " ++ e.msg)

/-- One element of the list the batch NIF encodes for the host, lib.rs lines
318-332: `{:ok, {status, headers, body}}` or `{:error, reason}`. -/
inductive EncodedItem where
  | okTuple (status : Nat) (headers : List (String × String)) (body : String) : EncodedItem
  | errorTerm (msg : String) : EncodedItem
deriving Repr, DecidableEq

/-- Awaiting one completed task handle and encoding its outcome, lib.rs lines
317-333: a `JoinError` becomes `{:error, "Task error: …"}`, a task-level
`Err(msg)` becomes `{:error, msg}`, a response becomes the ok tuple. -/
def awaitBatchTask (t : TaskRun) : EncodedItem :=
  match t.joinError with
  | some e => EncodedItem.errorTerm ("Task error: " ++ e)
  | none =>
      match batchTask t.send t.bodyError with
      | .ok r => EncodedItem.okTuple r.status r.headers r.body
      | .error m => EncodedItem.errorTerm m

/-- Embedding of the concurrent part of `http_get_batch`, lib.rs lines
282-335.  `net` gives each URL's network behaviour (the outcome of the GET to
that URL).  Tasks are spawned in input order (line 282's `map` over `urls`);
they complete in an arbitrary interleaving modelled by `order`, a list of task
indices in completion order, producing a completion log; the gather loop
(lines 316-333) then awaits each handle in spawn order, which looks its task
up in the log (blocking until present — under a schedule in which every task
completes, the lookup succeeds; the `errorTerm "pending"` branch is the
unreachable never-completes case). -/
def http_get_batch (urls : List String) (net : String → TaskRun) (order : List Nat) :
    List EncodedItem :=
  let log := order.map (fun i => (i, net (urls.getD i "")))
  (List.range urls.length).map (fun i =>
    match log.lookup i with
    | some t => awaitBatchTask t
    | none => EncodedItem.errorTerm "pending")

/-- Looking a key up in the association list built by mapping `fun j => (j, f j)`
over a list containing that key yields `f` at the key. -/
theorem lookup_map_pair {β : Type} (f : Nat → β) (order : List Nat) (i : Nat)
    (h : i ∈ order) :
    List.lookup i (order.map (fun j => (j, f j))) = some (f i) := by
  induction order with
  | nil => cases h
  | cons j rest ih =>
      by_cases hij : i = j
      · subst hij
        simp [List.lookup]
      · have hmem : i ∈ rest := by
          rcases List.mem_cons.mp h with h' | h'
          · exact absurd h' hij
          · exact h'
        have hbeq : (i == j) = false := by simp [hij]
        simp [List.lookup, hbeq, ih hmem]

/-- Under a completion schedule in which every spawned task completes (a
permutation of the task indices), the batch output is exactly the input-order
map of each URL's awaited outcome — independent of the completion order. -/
theorem http_get_batch_eq_map (urls : List String) (net : String → TaskRun)
    (order : List Nat) (hperm : order.Perm (List.range urls.length)) :
    http_get_batch urls net order = urls.map (fun u => awaitBatchTask (net u)) := by
  unfold http_get_batch
  rw [List.map_eq_iff]
  intro i
  rcases Nat.lt_or_ge i urls.length with hlt | hge
  · have hmem : i ∈ order := hperm.mem_iff.mpr (List.mem_range.mpr hlt)
    rw [List.getElem?_map, List.getElem?_range hlt]
    have hget : urls[i]? = some (urls.getD i "") := by
      rw [List.getD_eq_getElem?_getD, List.getElem?_eq_getElem hlt]
      rfl
    rw [hget]
    simp only [Option.map_some']
    rw [lookup_map_pair (fun j => net (urls.getD j "")) order i hmem]
  · rw [List.getElem?_map, List.getElem?_eq_none (by simpa using hge),
      List.getElem?_eq_none (by simpa using hge)]
    rfl

/-- The observable error taxonomy of the spec, read off a returned failure. -/
inductive ErrorKind where
  | timeout : ErrorKind
  | networkError : ErrorKind
  | requestError : ErrorKind
deriving Repr, DecidableEq

/-- The kind a host-side caller observes in a single-call failure: the tagged
atoms `:timeout` and `:network_error`, or the generic detail-string form. -/
def NifError.kind : NifError → ErrorKind
  | NifError.atom a =>
      if a = "timeout" then ErrorKind.timeout
      else if a = "network_error" then ErrorKind.networkError
      else ErrorKind.requestError
  | NifError.term _ => ErrorKind.requestError

/-- The kind a host-side caller observes in a batch list element: a batch
`{:error, reason}` carries only a detail string (the generic request-error
form — no timeout or network tag exists in the batch encoding). -/
def EncodedItem.failureKind : EncodedItem → Option ErrorKind
  | EncodedItem.okTuple .. => none
  | EncodedItem.errorTerm _ => some ErrorKind.requestError

/-- When no proxy is supplied the builder cannot fail and realises exactly the
resolved policy. -/
theorem build_client_ok_of_proxy_none (pp : String → Option String)
    (o : HttpOptions) (h : o.proxy = none) :
    build_client pp o = .ok (resolvePolicy o) := by
  cases o with
  | mk t p f m => cases h; rfl

/-- A present proxy URL the parser rejects makes the builder fail with the
propagated builder error. -/
theorem build_client_error_of_bad_proxy (pp : String → Option String)
    (o : HttpOptions) (url : String) (hp : o.proxy = some url)
    (hbad : pp url = none) :
    build_client pp o = .error ("builder error: " ++ url) := by
  cases o with
  | mk t p f m =>
      cases hp
      simp [build_client, hbad]

/-- C1: for every batch input of N URLs, the batch dispatch returns exactly N
results, the i-th being the outcome of the GET to the i-th input URL —
independent of the completion order of the spawned tasks (any permutation
`order` of the task indices yields the same, input-ordered output). -/
theorem c1_batch_results_ordered (urls : List String) (net : String → TaskRun)
    (order : List Nat) (hperm : order.Perm (List.range urls.length)) :
    (http_get_batch urls net order).length = urls.length ∧
    http_get_batch urls net order = urls.map (fun u => awaitBatchTask (net u)) := by
  have h := http_get_batch_eq_map urls net order hperm
  exact ⟨by rw [h, List.length_map], h⟩

/-- Witness for `c1_batch_results_ordered`: two URLs completing in reversed
order ([1, 0]) still produce results in input order. -/
theorem c1_batch_results_ordered_witness :
    List.Perm [1, 0] (List.range (["slow", "fast"] : List String).length) ∧
    http_get_batch ["slow", "fast"]
        (fun u => ⟨Except.error ⟨false, false, u⟩, none, none⟩) [1, 0] =
      [EncodedItem.errorTerm "Request error: slow",
       EncodedItem.errorTerm "Request error: fast"] := by
  refine ⟨by decide, ?_⟩
  rw [(c1_batch_results_ordered ["slow", "fast"]
    (fun u => ⟨Except.error ⟨false, false, u⟩, none, none⟩) [1, 0] (by decide)).2]
  rfl

/-- C2 counterexample: the same timed-out low-level failure is returned by the
single-call paths as the tagged timeout atom (`ErrorKind.Timeout`), but by the
batch path as a generic `"Request error: …"` string — the request-error form,
with no timeout tag — so the batch mode does not apply the same
classification. -/
theorem c2_batch_classification_counterexample :
    classify_get ⟨true, false, "m"⟩ = NifError.atom "timeout" ∧
    (classify_get ⟨true, false, "m"⟩).kind = ErrorKind.timeout ∧
    awaitBatchTask ⟨Except.error ⟨true, false, "m"⟩, none, none⟩ =
      EncodedItem.errorTerm ("Request error: " ++ "m") ∧
    EncodedItem.failureKind
        (awaitBatchTask ⟨Except.error ⟨true, false, "m"⟩, none, none⟩) =
      some ErrorKind.requestError ∧
    ErrorKind.timeout ≠ ErrorKind.requestError :=
  ⟨rfl, rfl, rfl, rfl, by decide⟩

/-- C2 amended: the timeout-then-connect-then-generic classification is
applied uniformly across the four single-call operations (blocking GET/POST
and non-blocking GET/POST); the batch path instead returns every send failure
as a generic request-error detail string, never a timeout or network tag. -/
theorem c2_classification_amended :
    ∀ (e : ReqError),
      (classify_get e = classify_post e ∧
       classify_get e = classify_get_async e ∧
       classify_get e = classify_post_async e) ∧
      ∀ (bodyErr : Option String),
        batchTask (Except.error e) bodyErr =
          Except.error ("Request error: " ++ e.msg) :=
  fun _ => ⟨⟨rfl, rfl, rfl⟩, fun _ => rfl⟩

/-- C6: an exchange that yields a complete response always returns success
carrying the server's status code, whatever it is; a failure can only arise
from client construction, the send itself, or the body read — never from the
status code. -/
theorem c6_status_never_failure :
    (∀ (env : ExchangeEnv) (o : HttpOptions) (r : Response),
        env.sendResult = Except.ok r → env.bodyError = none → o.proxy = none →
        http_get env o =
          Except.ok { status := r.status, headers := convertHeaders_get r.headers,
                      body := text r }) ∧
    (∀ (env : ExchangeEnv) (o : HttpOptions) (k : NifError),
        http_get env o = Except.error k →
        (build_client env.proxyParse o).isOk = false ∨
        env.sendResult.isOk = false ∨ env.bodyError.isSome = true) := by
  constructor
  · intro env o r hs hb hp
    simp [http_get, build_client_ok_of_proxy_none env.proxyParse o hp, hs, readBody, hb]
  · intro env o k h
    cases hbc : build_client env.proxyParse o with
    | error e => left; rfl
    | ok c =>
        cases hs : env.sendResult with
        | error e => right; left; rfl
        | ok r =>
            cases hb : env.bodyError with
            | some m => right; right; rfl
            | none => simp [http_get, hbc, hs, readBody, hb] at h

/-- Witness for `c6_status_never_failure`: a completed exchange with status
500 returns success with status 500. -/
theorem c6_status_never_failure_witness :
    (⟨fun _ => none, Except.ok ⟨500, [("a", some "1")], ["he", "llo"]⟩, none⟩ :
        ExchangeEnv).sendResult =
      Except.ok ⟨500, [("a", some "1")], ["he", "llo"]⟩ ∧
    http_get ⟨fun _ => none, Except.ok ⟨500, [("a", some "1")], ["he", "llo"]⟩, none⟩
        ⟨none, none, none, none⟩ =
      Except.ok { status := 500,
                  headers := convertHeaders_get [("a", some "1")],
                  body := text ⟨500, [("a", some "1")], ["he", "llo"]⟩ } :=
  ⟨rfl, c6_status_never_failure.1
    ⟨fun _ => none, Except.ok ⟨500, [("a", some "1")], ["he", "llo"]⟩, none⟩
    ⟨none, none, none, none⟩ ⟨500, [("a", some "1")], ["he", "llo"]⟩ rfl rfl rfl⟩

/-- C7: in a batch, no unit of work's failure affects any other: the output
has one entry per URL for every network behaviour; the i-th entry depends only
on the i-th URL's own behaviour (and not on the schedule or on other tasks);
and a spawned task whose join itself fails still yields its own well-formed
error entry at its own position. -/
theorem c7_batch_isolation (urls : List String) (net net' : String → TaskRun)
    (order order' : List Nat)
    (hperm : order.Perm (List.range urls.length))
    (hperm' : order'.Perm (List.range urls.length)) :
    (http_get_batch urls net order).length = urls.length ∧
    (∀ i, ∀ h : i < urls.length,
        net (urls.get ⟨i, h⟩) = net' (urls.get ⟨i, h⟩) →
        (http_get_batch urls net order)[i]? = (http_get_batch urls net' order')[i]?) ∧
    (∀ i, ∀ h : i < urls.length, ∀ m : String,
        (net (urls.get ⟨i, h⟩)).joinError = some m →
        (http_get_batch urls net order)[i]? =
          some (EncodedItem.errorTerm ("Task error: " ++ m))) := by
  have e1 := http_get_batch_eq_map urls net order hperm
  have e2 := http_get_batch_eq_map urls net' order' hperm'
  refine ⟨by rw [e1, List.length_map], ?_, ?_⟩
  · intro i h hnet
    rw [e1, e2, List.getElem?_map, List.getElem?_map, List.getElem?_eq_getElem h]
    simp only [Option.map_some']
    have hi : (urls[i] : String) = urls.get ⟨i, h⟩ := rfl
    rw [hi, hnet]
  · intro i h m hm
    rw [e1, List.getElem?_map, List.getElem?_eq_getElem h]
    simp only [Option.map_some']
    have hm' : (net urls[i]).joinError = some m := hm
    simp [awaitBatchTask, hm']

/-- Witness for `c7_batch_isolation`: a three-URL batch whose middle task's
join fails still yields a well-formed error entry at position 1. -/
theorem c7_batch_isolation_witness :
    List.Perm [2, 0, 1] (List.range 3) ∧
    (http_get_batch ["a", "b", "c"]
        (fun u => ⟨Except.error ⟨false, false, u⟩, none, some ("boom " ++ u)⟩)
        [2, 0, 1])[1]? =
      some (EncodedItem.errorTerm ("Task error: " ++ ("boom " ++ "b"))) :=
  ⟨by decide,
   (c7_batch_isolation ["a", "b", "c"]
      (fun u => ⟨Except.error ⟨false, false, u⟩, none, some ("boom " ++ u)⟩)
      (fun u => ⟨Except.error ⟨false, false, u⟩, none, some ("boom " ++ u)⟩)
      [2, 0, 1] [2, 0, 1] (by decide) (by decide)).2.2
     1 (by decide) ("boom " ++ "b") rfl⟩

/-- C8: a present-but-unparseable proxy URL makes client construction fail in
both execution modes; the single-call operations then return the
construction-time client error without consulting the network at all (the
result is the same for every send outcome — no request is issued), never
deferring the failure to request time. -/
theorem c8_invalid_proxy_construction
    (pp : String → Option String) (url : String) (o : HttpOptions)
    (hp : o.proxy = some url) (hbad : pp url = none) :
    (build_client pp o).isOk = false ∧
    (build_async_client pp o).isOk = false ∧
    (∀ s₁ s₂ b₁ b₂, http_get ⟨pp, s₁, b₁⟩ o = http_get ⟨pp, s₂, b₂⟩ o) ∧
    (∀ s b, http_get ⟨pp, s, b⟩ o =
        Except.error (NifError.term ("Client error: " ++ ("builder error: " ++ url)))) ∧
    (∀ s b, http_get_async ⟨pp, s, b⟩ o =
        Except.error (NifError.term ("Client error: " ++ ("builder error: " ++ url)))) := by
  have hb := build_client_error_of_bad_proxy pp o url hp hbad
  have hb' : build_async_client pp o = .error ("builder error: " ++ url) := hb
  refine ⟨by rw [hb]; rfl, by rw [hb']; rfl, ?_, ?_, ?_⟩
  · intro s₁ s₂ b₁ b₂
    simp [http_get, hb]
  · intro s b
    simp [http_get, hb]
  · intro s b
    simp [http_get_async, hb']

/-- Witness for `c8_invalid_proxy_construction` at a concrete rejected proxy
URL. -/
theorem c8_invalid_proxy_construction_witness :
    (⟨none, some "bad", none, none⟩ : HttpOptions).proxy = some "bad" ∧
    (fun _ : String => (none : Option String)) "bad" = none ∧
    (build_client (fun _ => none) ⟨none, some "bad", none, none⟩).isOk = false :=
  ⟨rfl, rfl,
   (c8_invalid_proxy_construction (fun _ => none) "bad"
      ⟨none, some "bad", none, none⟩ rfl rfl).1⟩

/-- C9: every success result carries the entire response body — the
concatenation of all chunks the transport delivered — read fully (the body
read must have succeeded, so no partial body is ever exposed), together with
the response's own status. -/
theorem c9_full_body_buffered (env : ExchangeEnv) (o : HttpOptions)
    (resp : HttpResponseM) (h : http_get env o = Except.ok resp) :
    ∃ r, env.sendResult = Except.ok r ∧ resp.body = String.join r.bodyChunks ∧
      resp.status = r.status ∧ env.bodyError = none := by
  cases hbc : build_client env.proxyParse o with
  | error e => simp [http_get, hbc] at h
  | ok c =>
      cases hs : env.sendResult with
      | error e => simp [http_get, hbc, hs] at h
      | ok r =>
          cases hb : env.bodyError with
          | some m => simp [http_get, hbc, hs, readBody, hb] at h
          | none =>
              simp [http_get, hbc, hs, readBody, hb] at h
              exact ⟨r, rfl, by rw [← h]; rfl, by rw [← h], rfl⟩

/-- Witness for `c9_full_body_buffered`: a three-chunk body arrives in the
success result as its full concatenation. -/
theorem c9_full_body_buffered_witness :
    http_get ⟨fun _ => none, Except.ok ⟨200, [], ["ab", "cd", "ef"]⟩, none⟩
        ⟨none, none, none, none⟩ =
      Except.ok { status := 200, headers := [], body := "abcdef" } ∧
    ∃ r, (⟨fun _ => none, Except.ok ⟨200, [], ["ab", "cd", "ef"]⟩, none⟩ :
          ExchangeEnv).sendResult = Except.ok r ∧
      ({ status := 200, headers := [], body := "abcdef" } : HttpResponseM).body =
        String.join r.bodyChunks ∧
      ({ status := 200, headers := [], body := "abcdef" } : HttpResponseM).status =
        r.status ∧
      (⟨fun _ => none, Except.ok ⟨200, [], ["ab", "cd", "ef"]⟩, none⟩ :
          ExchangeEnv).bodyError = none :=
  ⟨rfl, c9_full_body_buffered
    ⟨fun _ => none, Except.ok ⟨200, [], ["ab", "cd", "ef"]⟩, none⟩
    ⟨none, none, none, none⟩ { status := 200, headers := [], body := "abcdef" } rfl⟩

/-- Looking up any key after a `hashMapInsert` yields the inserted value for
the inserted key and the old binding for every other key. -/
theorem lookup_hashMapInsert (m : List (String × String)) (k v q : String) :
    List.lookup q (hashMapInsert m k v) =
      if q = k then some v else List.lookup q m := by
  induction m with
  | nil =>
      by_cases hq : q = k
      · have hb : (q == k) = true := by simp [hq]
        simp [hashMapInsert, List.lookup, hb, hq]
      · have hb : (q == k) = false := by simp [hq]
        simp [hashMapInsert, List.lookup, hb, hq]
  | cons p rest ih =>
      obtain ⟨a, b⟩ := p
      by_cases hak : a = k
      · have hins : hashMapInsert ((a, b) :: rest) k v = (k, v) :: rest := by
          simp [hashMapInsert, hak]
        rw [hins]
        by_cases hq : q = k
        · have hb : (q == k) = true := by simp [hq]
          simp [List.lookup, hb, hq]
        · have hqa : ¬ q = a := by rw [hak]; exact hq
          have hb1 : (q == k) = false := by simp [hq]
          have hb2 : (q == a) = false := by simp [hqa]
          simp [List.lookup, hb1, hb2, hq]
      · have hins : hashMapInsert ((a, b) :: rest) k v = (a, b) :: hashMapInsert rest k v := by
          simp [hashMapInsert, hak]
        rw [hins]
        by_cases hqa : q = a
        · have hqk : ¬ q = k := by rw [hqa]; exact hak
          have hb : (q == a) = true := by simp [hqa]
          simp [List.lookup, hb, hqk, hak]
        · have hb : (q == a) = false := by simp [hqa]
          simp [List.lookup, hb, ih]

/-- Folding a pair list into a hash map by insertion binds each key to its
last occurrence's value, falling back to the initial map's binding. -/
theorem lookup_foldl_insert (l : List (String × String)) (q : String)
    (m : List (String × String)) :
    List.lookup q (l.foldl (fun acc kv => hashMapInsert acc kv.1 kv.2) m) =
      match lastBinding l q with
      | some v => some v
      | none => List.lookup q m := by
  induction l generalizing m with
  | nil => simp [lastBinding]
  | cons p t ih =>
      rw [List.foldl_cons, ih (hashMapInsert m p.1 p.2)]
      cases hlb : lastBinding t q with
      | some v => simp [lastBinding, hlb]
      | none =>
          simp only [lastBinding, hlb]
          rw [lookup_hashMapInsert]
          by_cases hq : q = p.1
          · simp [hq]
          · have hpq : ¬ p.1 = q := fun h => hq h.symm
            simp [hq, hpq]

/-- Converting the header values entry-wise commutes with taking the last
occurrence of a name. -/
theorem lastBinding_map_conv (hs : List (String × Option String)) (q : String) :
    lastBinding (hs.map (fun kv => (kv.1, kv.2.getD ""))) q =
      (lastValue hs q).map (fun v => v.getD "") := by
  induction hs with
  | nil => rfl
  | cons p t ih =>
      simp only [List.map_cons, lastBinding, lastValue, ih]
      cases hlv : lastValue t q with
      | some v => simp
      | none => by_cases hq : p.1 = q <;> simp [hq]

/-- The collected header map of `http_get` binds each name to the converted
value of the name's last occurrence in the response. -/
theorem lookup_convertHeaders_get (hs : List (String × Option String)) (q : String) :
    List.lookup q (convertHeaders_get hs) =
      (lastValue hs q).map (fun v => v.getD "") := by
  unfold convertHeaders_get collectHashMap
  rw [lookup_foldl_insert, lastBinding_map_conv]
  cases lastValue hs q <;> simp [List.lookup]

/-- C10 counterexample: conversion never fails, but the claimed binding is
wrong in the presence of duplicate response headers — a `set-cookie` header
whose value is not representable as text, shadowed by a later duplicate with
value "v", is bound to "v" by the last-value-wins `HashMap` collection, not to
the empty string. -/
theorem c10_header_conversion_counterexample :
    ("set-cookie", (none : Option String)) ∈
      [("set-cookie", (none : Option String)),
       ("set-cookie", (some "v" : Option String))] ∧
    List.lookup "set-cookie"
        (convertHeaders_get
          [("set-cookie", (none : Option String)),
           ("set-cookie", (some "v" : Option String))]) = some "v" ∧
    (some "v" : Option String) ≠ some "" ∧
    ("set-cookie", "") ∉ convertHeaders_get
      [("set-cookie", (none : Option String)),
       ("set-cookie", (some "v" : Option String))] :=
  ⟨by decide, rfl, by decide, by decide⟩

/-- C10 amended: response-header conversion is total and never fails a
request; it is applied identically at all five conversion sites (blocking
GET/POST, async GET/POST, batch task); and the returned mapping binds each
header name to the converted value of the name's LAST occurrence, where a
value not representable as text converts to the empty string — in particular a
name whose last occurrence is not representable as text is bound to the empty
string. -/
theorem c10_header_conversion_amended (hs : List (String × Option String)) :
    (convertHeaders_get hs = convertHeaders_post hs ∧
     convertHeaders_get hs = convertHeaders_get_async hs ∧
     convertHeaders_get hs = convertHeaders_post_async hs ∧
     convertHeaders_get hs = convertHeaders_batch hs) ∧
    (∀ q : String,
        List.lookup q (convertHeaders_get hs) =
          (lastValue hs q).map (fun v => v.getD "")) ∧
    ∀ q : String, lastValue hs q = some none →
      List.lookup q (convertHeaders_get hs) = some "" := by
  refine ⟨⟨rfl, rfl, rfl, rfl⟩, fun q => lookup_convertHeaders_get hs q, ?_⟩
  intro q hq
  rw [lookup_convertHeaders_get hs q, hq]
  rfl

/-- Witness for `c10_header_conversion_amended`: a `set-cookie` header whose
only (hence last) occurrence is not representable as text is bound to the
empty string. -/
theorem c10_header_conversion_amended_witness :
    lastValue [("set-cookie", (none : Option String))] "set-cookie" = some none ∧
    List.lookup "set-cookie"
        (convertHeaders_get [("set-cookie", (none : Option String))]) = some "" :=
  ⟨by decide,
   (c10_header_conversion_amended [("set-cookie", (none : Option String))]).2.2
     "set-cookie" (by decide)⟩

end RustReq
